import Mathlib

/-!
Verification development for the Data_Analysis_App repository (src/app.py).

The app is a Streamlit dashboard backed by a SQLite database.  We shallowly
embed the parts of `app.py` that the claims are about:

* `hash_password` / `verify_password` (SHA-256 hex digest, src/app.py:334-340),
  implemented bit-faithfully over `Nat` with explicit `% 2^32` wrapping;
* `signup`, `check_credentials`, `current_user`, `save_feedback` — the SQLite
  `users` / `feedback` tables become Lean lists, a `SELECT ... fetchone()` is
  `List.find?`, an `UPDATE ... WHERE id=?` is a map over the list, and the
  best-effort CSV mirror writes become a `Bool` parameter saying whether the
  file append raises;
* the analysis page's search-filter / row-window logic (src/app.py:461-515);
* the chart builder's kind dispatch and last-chart retention (src/app.py:568-612);
* the structural migration of `ensure_users_table` (src/app.py:52-87), with
  `INSERT OR IGNORE` into a table whose `id` is PRIMARY KEY and whose
  `username` is UNIQUE modelled as a fold that skips conflicting rows.
-/

namespace DataApp

/-! ## SHA-256 over `Nat` (hashlib.sha256(...).hexdigest(), src/app.py:334-340) -/

/-- Truncate to a 32-bit word, the implicit wrap-around of SHA-256 arithmetic. -/
def w32 (n : Nat) : Nat := n % 4294967296

/-- Rotate a 32-bit word right by `n` bits. -/
def rotr (n x : Nat) : Nat := w32 ((x >>> n) ||| (x <<< (32 - n)))

def bigSigma0 (x : Nat) : Nat := (rotr 2 x) ^^^ (rotr 13 x) ^^^ (rotr 22 x)

def bigSigma1 (x : Nat) : Nat := (rotr 6 x) ^^^ (rotr 11 x) ^^^ (rotr 25 x)

def smallSigma0 (x : Nat) : Nat := (rotr 7 x) ^^^ (rotr 18 x) ^^^ (x >>> 3)

def smallSigma1 (x : Nat) : Nat := (rotr 17 x) ^^^ (rotr 19 x) ^^^ (x >>> 10)

/-- `Ch(x,y,z)`; `~x` on 32 bits is xor with the all-ones mask. -/
def chV (x y z : Nat) : Nat := (x &&& y) ^^^ ((x ^^^ 4294967295) &&& z)

def majV (x y z : Nat) : Nat := (x &&& y) ^^^ (x &&& z) ^^^ (y &&& z)

/-- The 64 SHA-256 round constants (FIPS 180-4), in decimal. -/
def K256 : List Nat :=
  [1116352408, 1899447441, 3049323471, 3921009573, 961987163, 1508970993,
   2453635748, 2870763221, 3624381080, 310598401, 607225278, 1426881987,
   1925078388, 2162078206, 2614888103, 3248222580, 3835390401, 4022224774,
   264347078, 604807628, 770255983, 1249150122, 1555081692, 1996064986,
   2554220882, 2821834349, 2952996808, 3210313671, 3336571891, 3584528711,
   113926993, 338241895, 666307205, 773529912, 1294757372, 1396182291,
   1695183700, 1986661051, 2177026350, 2456956037, 2730485921, 2820302411,
   3259730800, 3345764771, 3516065817, 3600352804, 4094571909, 275423344,
   430227734, 506948616, 659060556, 883997877, 958139571, 1322822218,
   1537002063, 1747873779, 1955562222, 2024104815, 2227730452, 2361852424,
   2428436474, 2756734187, 3204031479, 3329325298]

/-- The eight chaining-value words of SHA-256. -/
structure H8 where
  v0 : Nat
  v1 : Nat
  v2 : Nat
  v3 : Nat
  v4 : Nat
  v5 : Nat
  v6 : Nat
  v7 : Nat
  deriving DecidableEq

def initH : H8 :=
  ⟨1779033703, 3144134277, 1013904242, 2773480762, 1359893119, 2600822924,
   528734635, 1541459225⟩

/-- The eight working registers of the compression loop. -/
structure Reg where
  a : Nat
  b : Nat
  c : Nat
  d : Nat
  e : Nat
  f : Nat
  g : Nat
  h : Nat
  deriving DecidableEq

/-- One round of the SHA-256 compression function on registers, fed one
round constant paired with one message-schedule word. -/
def roundStep (r : Reg) (kw : Nat × Nat) : Reg :=
  let t1 := w32 (r.h + bigSigma1 r.e + chV r.e r.f r.g + kw.1 + kw.2)
  let t2 := w32 (bigSigma0 r.a + majV r.a r.b r.c)
  ⟨w32 (t1 + t2), r.a, r.b, r.c, w32 (r.d + t1), r.e, r.f, r.g⟩

/-- Group a big-endian byte stream into 32-bit words, four bytes per word. -/
def bytesToWords : List Nat → List Nat
  | b0 :: b1 :: b2 :: b3 :: rest =>
      (b0 * 16777216 + b1 * 65536 + b2 * 256 + b3) :: bytesToWords rest
  | _ => []

/-- Extend the 16 block words by `k` further message-schedule words. -/
def schedExtend : Nat → List Nat → List Nat
  | 0, w => w
  | k + 1, w =>
      let n := w.length
      schedExtend k
        (w ++ [w32 (smallSigma1 (w.getD (n - 2) 0) + w.getD (n - 7) 0 +
                    smallSigma0 (w.getD (n - 15) 0) + w.getD (n - 16) 0)])

/-- Compress one 64-byte block into the chaining value. -/
def compress (hv : H8) (block : List Nat) : H8 :=
  let w := schedExtend 48 (bytesToWords block)
  let r := (K256.zip w).foldl roundStep
    ⟨hv.v0, hv.v1, hv.v2, hv.v3, hv.v4, hv.v5, hv.v6, hv.v7⟩
  ⟨w32 (hv.v0 + r.a), w32 (hv.v1 + r.b), w32 (hv.v2 + r.c), w32 (hv.v3 + r.d),
   w32 (hv.v4 + r.e), w32 (hv.v5 + r.f), w32 (hv.v6 + r.g), w32 (hv.v7 + r.h)⟩

/-- The length (in bytes) of the message, as eight big-endian bytes. -/
def be8 (n : Nat) : List Nat :=
  [n / 72057594037927936 % 256, n / 281474976710656 % 256, n / 1099511627776 % 256,
   n / 4294967296 % 256, n / 16777216 % 256, n / 65536 % 256, n / 256 % 256, n % 256]

/-- SHA-256 padding: a 0x80 byte, zeros to 56 mod 64, then the bit length. -/
def padMessage (msg : List Nat) : List Nat :=
  let L := msg.length
  let zeros := (120 - ((L + 1) % 64)) % 64
  msg ++ [128] ++ List.replicate zeros 0 ++ be8 (8 * L)

/-- Split into 64-byte chunks; the fuel argument only needs to exceed the
number of chunks, and callers pass more than enough. -/
def chunksOf64 : Nat → List Nat → List (List Nat)
  | 0, _ => []
  | _ + 1, [] => []
  | fuel + 1, b :: bs => (b :: bs).take 64 :: chunksOf64 fuel ((b :: bs).drop 64)

/-- The SHA-256 digest (as eight words) of a byte string. -/
def sha256Digest (msg : List Nat) : H8 :=
  (chunksOf64 (msg.length + 73) (padMessage msg)).foldl compress initH

/-- Two lowercase hex characters of one byte. -/
def byteHex (b : Nat) : List Char := [Nat.digitChar (b / 16 % 16), Nat.digitChar (b % 16)]

/-- Eight lowercase hex characters of one 32-bit word, big-endian. -/
def wordHex (w : Nat) : List Char :=
  byteHex (w / 16777216 % 256) ++ byteHex (w / 65536 % 256) ++
  byteHex (w / 256 % 256) ++ byteHex (w % 256)

/-- The 64-character lowercase hex rendering of a digest (`.hexdigest()`). -/
def h8Hex (hv : H8) : String :=
  String.mk (wordHex hv.v0 ++ wordHex hv.v1 ++ wordHex hv.v2 ++ wordHex hv.v3 ++
             wordHex hv.v4 ++ wordHex hv.v5 ++ wordHex hv.v6 ++ wordHex hv.v7)

/-- UTF-8 encoding of one character (`str.encode('utf-8')` acts per code point). -/
def utf8Char (c : Char) : List Nat :=
  let n := c.toNat
  if n < 128 then [n]
  else if n < 2048 then [192 + n / 64, 128 + n % 64]
  else if n < 65536 then [224 + n / 4096, 128 + n / 64 % 64, 128 + n % 64]
  else [240 + n / 262144, 128 + n / 4096 % 64, 128 + n / 64 % 64, 128 + n % 64]

def utf8Bytes (s : String) : List Nat := (s.data.map utf8Char).flatten

/-- `hash_password` (src/app.py:334-336): sha256 of the UTF-8 bytes, as hex. -/
def hash_password (password : String) : String :=
  h8Hex (sha256Digest (utf8Bytes password))

/-- `verify_password` (src/app.py:339-340). -/
def verify_password (password hashed : String) : Bool :=
  hash_password password == hashed

/-! ## The users table and the credential operations -/

/-- One row of the SQLite `users` table
(`id INTEGER PRIMARY KEY AUTOINCREMENT, username TEXT UNIQUE, password TEXT,
created_at TEXT`). -/
structure UserRow where
  id : Nat
  username : String
  password : String
  created_at : String
  deriving DecidableEq

/-- A default row for `getD`-style indexing in theorem statements. -/
def dummyRow : UserRow := ⟨0, "", "", ""⟩

/-- `SELECT ... FROM users WHERE username=?` followed by `fetchone()`:
the first row (in rowid order) whose `username` matches. -/
def findUser (users : List UserRow) (u : String) : Option UserRow :=
  users.find? (fun r => r.username == u)

/-- The credential-relevant persistent state: the `users` table (in rowid
order), the next AUTOINCREMENT id, and the best-effort users-export CSV
mirror (`data/users_export.csv`) as a list of (username, created_at, hash)
rows. -/
structure UsersDb where
  users : List UserRow
  nextId : Nat
  usersExport : List (String × String × String)
  deriving DecidableEq

/-- `signup` (src/app.py:249-281).  `ts` is the `datetime.now()` timestamp
string; `mirrorOk` says whether the best-effort CSV append inside the inner
`try`/`except` succeeds (an exception there is swallowed by `pass`).
Returns the new state and the `(ok, message)` pair. -/
def signup (db : UsersDb) (mirrorOk : Bool) (username password ts : String) :
    UsersDb × Bool × String :=
  match findUser db.users username with
  | some _ => (db, false, "Username already exists")
  | none =>
      let hashed := hash_password password
      let db' : UsersDb :=
        { users := db.users ++ [⟨db.nextId, username, hashed, ts⟩]
          nextId := db.nextId + 1
          usersExport :=
            if mirrorOk then db.usersExport ++ [(username, ts, hashed)]
            else db.usersExport }
      (db', true, "Account created")

/-- The characters of the literal `'0123456789abcdef'` of src/app.py:311. -/
def hexChars : List Char := "0123456789abcdef".data

/-- The shape test of src/app.py:311: `stored` is truthy, has length 64, and
every character of `stored.lower()` is in `'0123456789abcdef'`. -/
def looksHashed (stored : String) : Bool :=
  (!(stored == "")) && (stored.length == 64) &&
    stored.data.all (fun c => hexChars.contains c.toLower)

/-- `UPDATE users SET password=? WHERE id=?` (src/app.py:322). -/
def updatePassword (users : List UserRow) (uid : Nat) (newPwd : String) :
    List UserRow :=
  users.map (fun r => if r.id == uid then { r with password := newPwd } else r)

/-- `check_credentials` (src/app.py:283-331).  The login-activity CSV append
(`log_login`) is wrapped in `try`/`except pass` and touches no table, so it
does not appear in the state.  Returns the new `users` table and the result. -/
def check_credentials (users : List UserRow) (username password : String) :
    List UserRow × Bool :=
  match findUser users username with
  | none => (users, false)
  | some row =>
      let stored := row.password
      if looksHashed stored then
        (users, verify_password password stored)
      else if stored == password then
        (updatePassword users row.id (hash_password password), true)
      else
        (users, false)

/-! ## Session resolution (`current_user`, src/app.py:226-239) -/

/-- `current_user` (src/app.py:226-239).  `marker` is the content of
`data/current_user.txt` when the file exists (`none` when it does not).
The file content is stripped; a non-empty result is looked up in the
`users` table, and the `(id, username)` pair is returned only when the row
still exists. -/
def current_user (marker : Option String) (users : List UserRow) :
    Option (Nat × String) :=
  match marker with
  | none => none
  | some content =>
      let username := content.trim
      if username == "" then none
      else
        match findUser users username with
        | some row => some (row.id, row.username)
        | none => none

/-! ## Feedback store (`save_feedback`, src/app.py:90-140) -/

/-- One row of the SQLite `feedback` table (after `ensure_feedback_table`
added the nullable `user_id` column). -/
structure FeedbackRow where
  id : Nat
  username : String
  user_id : Option Nat
  feedback : String
  feedback_at : String
  deriving DecidableEq

/-- The feedback-relevant persistent state: the `feedback` table, its next
AUTOINCREMENT id, the `users` table (read for the user-id resolution), and
the best-effort feedback-log CSV mirror as (username, feedback, feedback_at)
rows. -/
structure FeedbackDb where
  users : List UserRow
  feedbacks : List FeedbackRow
  nextFbId : Nat
  feedbackLog : List (String × String × String)
  deriving DecidableEq

/-- `save_feedback` (src/app.py:90-140) in the `user_id`-column-present
state that `ensure_feedback_table` establishes.  `mirrorOk` says whether the
best-effort CSV append succeeds (its exception is swallowed).  `username or ''`
of the insert is the identity on strings; the user-id lookup runs only for a
truthy (non-empty) username. -/
def save_feedback (db : FeedbackDb) (mirrorOk : Bool) (username feedback ts : String) :
    FeedbackDb × Bool × String :=
  let user_id : Option Nat :=
    if username == "" then none else (findUser db.users username).map (fun r => r.id)
  let db' : FeedbackDb :=
    { db with
      feedbacks := db.feedbacks ++ [⟨db.nextFbId, username, user_id, feedback, ts⟩]
      nextFbId := db.nextFbId + 1
      feedbackLog :=
        if mirrorOk then db.feedbackLog ++ [(username, feedback, ts)]
        else db.feedbackLog }
  (db', true, "Saved")

/-! ## Analysis page: search filter and row window (src/app.py:461-515)

The uploaded dataset is a pandas DataFrame; we model it as an ordered list
of rows over named columns, with every cell already a string (the filter in
the source applies `.astype(str)` to the search column before matching, so
matching happens on the text rendering of the cells).

`filtered_df[search_col].astype(str).str.contains(search_val, case=False,
na=False)` uses the pandas default `regex=True`: the entered value is an
`re` pattern, matched case-insensitively anywhere in the cell text.  We
model the regex fragment in which every pattern character is either an
ordinary (literal) character or `.` (match any character except a newline).
Patterns containing the remaining `re` metacharacters
(backslash, anchors, repetition operators, classes, groups, alternation)
are outside the modelled fragment — the embedding treats them as literals,
and every theorem quantifying over patterns restricts to literal-only
patterns via a `litOnly` hypothesis. -/

/-- One pattern atom of the modelled regex fragment. -/
inductive PTok where
  | dot : PTok
  | lit : Char → PTok
  deriving DecidableEq

def tokOfChar (c : Char) : PTok := if c == '.' then .dot else .lit c

/-- Case-insensitive (`case=False` ⇒ `re.IGNORECASE`) match of one atom. -/
def tokMatch : PTok → Char → Bool
  | .dot, c => !(c == '\n')
  | .lit a, c => a.toLower == c.toLower

/-- Does the token list match a leading segment of the text here? -/
def toksMatchAt : List PTok → List Char → Bool
  | [], _ => true
  | _ :: _, [] => false
  | t :: ts, c :: cs => tokMatch t c && toksMatchAt ts cs

/-- `re.search`: does the token list match at some position of the text? -/
def toksSearch (ts : List PTok) : List Char → Bool
  | [] => toksMatchAt ts []
  | c :: cs => toksMatchAt ts (c :: cs) || toksSearch ts cs

/-- `pd.Series.str.contains(pat, case=False, na=False)` on one cell, within
the modelled regex fragment. -/
def pandasStrContains (pat cell : String) : Bool :=
  toksSearch (pat.data.map tokOfChar) cell.data

/-- Characters that are `re` metacharacters other than `.`; patterns using
them fall outside the modelled fragment. -/
def isRegexMeta (c : Char) : Bool :=
  c == '\\' || c == '^' || c == '$' || c == '*' || c == '+' || c == '?' ||
  c == '{' || c == '}' || c == '[' || c == ']' || c == '(' || c == ')' || c == '|'

/-- Every pattern character is an ordinary literal: neither a metacharacter
nor the wildcard `.` — exactly the patterns on which a regex search and a
plain substring search agree. -/
def litOnly (pat : String) : Bool :=
  pat.data.all (fun c => !(isRegexMeta c) && !(c == '.'))

/-- A dataset entry: ordered named columns, ordered rows, string cells. -/
structure DFrame where
  cols : List String
  rows : List (List String)
  deriving DecidableEq

/-- The cell of `row` in column `col` of `df` (text-rendered). -/
def cellVal (df : DFrame) (col : String) (row : List String) : String :=
  row.getD (df.cols.indexOf col) ""

/-- The search filter (src/app.py:461-463): `if search_val:` skips filtering
for the empty string; otherwise keep the rows whose search-column cell
matches the pattern. -/
def searchFilter (df : DFrame) (searchCol searchVal : String) : DFrame :=
  if searchVal == "" then df
  else
    { df with
      rows := df.rows.filter (fun r => pandasStrContains searchVal (cellVal df searchCol r)) }

/-- Does the first character list start with the second one? -/
def charsStartWith : List Char → List Char → Bool
  | _, [] => true
  | [], _ :: _ => false
  | a :: as, b :: bs => (a == b) && charsStartWith as bs

/-- Does the first character list contain the second as a contiguous run? -/
def charsHaveSub : List Char → List Char → Bool
  | [], needle => needle.isEmpty
  | a :: as, needle => charsStartWith (a :: as) needle || charsHaveSub as needle

/-- Case-insensitive substring containment: `sub` occurs in `cell`. -/
def specContainsCI (cell sub : String) : Bool :=
  charsHaveSub (cell.data.map Char.toLower) (sub.data.map Char.toLower)

/-- The spec-side reading of the filter, for comparison: keep the rows whose
search-column cell contains the entered value as a (case-insensitive)
substring.  This follows the spec's words, not the source. -/
def specSubstringFilter (df : DFrame) (searchCol searchVal : String) : DFrame :=
  if searchVal == "" then df
  else
    { df with
      rows := df.rows.filter (fun r => specContainsCI (cellVal df searchCol r) searchVal) }

/-- The displayed row window (src/app.py:466-515).  `data_max` is
`max(0, len(filtered_df) - int(rows))` (truncated subtraction on `Nat`);
when it is positive the slider offers `data_from ∈ [0, data_max]` and the
window is `filtered_df.iloc[data_from : data_from + rows]`; otherwise no
slider is offered and the displayed frame is `filtered_df.iloc[0:0]`. -/
def analysisWindow (filteredRows : List (List String)) (rows dataFrom : Nat) :
    List (List String) :=
  let dataMax := filteredRows.length - rows
  if 0 < dataMax then (filteredRows.drop dataFrom).take rows
  else []

/-! ## Chart builder (src/app.py:526-612) -/

inductive ChartType where
  | Bar | Line | Pie | Scatter | Histogram | Box | Area | Violin
  | DensityHeatmap | Funnel | Sunburst | Treemap | Heatmap
  deriving DecidableEq

/-- A renderable figure, recorded as the plotly-express call that built it
(the charting library itself is an opaque pass-through). -/
structure Fig where
  plotFun : String
  x : Option String
  y : Option String
  color : Option String
  names : Option String
  values : Option String
  path : Option String
  deriving DecidableEq

def baseFig (f : String) : Fig := ⟨f, none, none, none, none, none, none⟩

/-- Python truthiness of the `selectbox` result `[None] + columns`. -/
def optTruthy (o : Option String) : Bool :=
  match o with
  | none => false
  | some s => !(s == "")

/-- The outcome of pressing "Create Chart": the figure (if one was built)
and the `st.error` message (if the validation failed). -/
structure ChartOutcome where
  fig : Option Fig
  err : Option String
  deriving DecidableEq

/-- The `plot_kwargs` assembly (src/app.py:556-566) applied to a figure. -/
def applyKwargs (ct : ChartType) (x_col : String) (y_col color_col : Option String)
    (f : Fig) : Fig :=
  match ct with
  | .Pie =>
      { f with names := some x_col, values := if optTruthy y_col then y_col else none }
  | _ =>
      { f with x := some x_col,
               y := if optTruthy y_col then y_col else none,
               color := if optTruthy color_col then color_col else none }

/-- The chart dispatch (src/app.py:568-612): `fig` starts as `None`; the two
heatmap kinds demand a truthy Y column and otherwise report `st.error`
without building a figure. -/
def createChart (ct : ChartType) (x_col : String) (y_col color_col : Option String) :
    ChartOutcome :=
  let kw := applyKwargs ct x_col y_col color_col
  match ct with
  | .Bar => ⟨some (kw (baseFig "px.bar")), none⟩
  | .Line => ⟨some (kw (baseFig "px.line")), none⟩
  | .Pie => ⟨some (kw (baseFig "px.pie")), none⟩
  | .Scatter => ⟨some (kw (baseFig "px.scatter")), none⟩
  | .Histogram => ⟨some (kw (baseFig "px.histogram")), none⟩
  | .Box => ⟨some (kw (baseFig "px.box")), none⟩
  | .Area => ⟨some (kw (baseFig "px.area")), none⟩
  | .Violin => ⟨some (kw (baseFig "px.violin")), none⟩
  | .DensityHeatmap =>
      if optTruthy y_col then
        ⟨some { baseFig "px.density_heatmap" with x := some x_col, y := y_col }, none⟩
      else ⟨none, some "Density Heatmap requires both X and Y numeric columns"⟩
  | .Funnel => ⟨some (kw (baseFig "px.funnel")), none⟩
  | .Sunburst => ⟨some { baseFig "px.sunburst" with path := some x_col }, none⟩
  | .Treemap => ⟨some { baseFig "px.treemap" with path := some x_col }, none⟩
  | .Heatmap =>
      if optTruthy y_col then
        ⟨some { baseFig "px.density_heatmap" with x := some x_col, y := y_col }, none⟩
      else ⟨none, some "Heatmap requires both X and Y columns"⟩

/-- `st.session_state['last_chart']` update (src/app.py:605-609): only a
non-`None` figure replaces the retained chart. -/
def updateLastChart (prev : Option Fig) (o : ChartOutcome) : Option Fig :=
  match o.fig with
  | some f => some f
  | none => prev

/-! ## Structural migration of the users table (src/app.py:22-87) -/

/-- A row of a legacy `users` table; every column value may be NULL. -/
structure LegacyRow where
  lid : Option Nat
  lusername : Option String
  lpassword : Option String
  lcreated_at : Option String
  deriving DecidableEq

/-- A legacy `users` table: its column names and its rows (in rowid order). -/
structure LegacyTable where
  cols : List String
  rows : List LegacyRow
  deriving DecidableEq

def neededCols : List String := ["id", "username", "password", "created_at"]

/-- The early-return test of src/app.py:47:
`set(cols) == needed or ("username" in cols and "password" in cols and
"created_at" in cols)`. -/
def hasNeededCols (cols : List String) : Bool :=
  (cols.all (fun c => neededCols.contains c) && neededCols.all (fun c => cols.contains c))
  || (cols.contains "username" && cols.contains "password" && cols.contains "created_at")

/-- The constraint-violation test of `INSERT OR IGNORE INTO users_new`:
`users_new` has `username TEXT UNIQUE` and `id INTEGER PRIMARY KEY`, so a row
conflicts when its coalesced username, or (when the legacy table has an `id`
column and the value is not NULL) its id, is already present. -/
def migConflict (hasId : Bool) (acc : List UserRow × Nat) (r : LegacyRow) : Bool :=
  (acc.1.any fun x => x.username == r.lusername.getD "") ||
  (match (if hasId then r.lid else none) with
   | some i => acc.1.any fun x => x.id == i
   | none => false)

/-- One `INSERT OR IGNORE INTO users_new ... SELECT ...` row (src/app.py:64-80).
The accumulator is the rows copied so far plus the next auto-assigned rowid;
a conflicting row is silently skipped, otherwise the row is appended with
`COALESCE`d values (`created_at` falls back to `datetime('now')`). -/
def migStep (hasId hasCreated : Bool) (now : String)
    (acc : List UserRow × Nat) (r : LegacyRow) : List UserRow × Nat :=
  if migConflict hasId acc r then acc
  else
    let newId := (if hasId then r.lid else none).getD acc.2
    (acc.1 ++ [⟨newId, r.lusername.getD "", r.lpassword.getD "",
       if hasCreated then r.lcreated_at.getD now else now⟩],
     max acc.2 (newId + 1))

/-- The row-copying phase of the migration: fold every legacy row through
`INSERT OR IGNORE`.  `now` stands for `datetime('now')`. -/
def migrateUsers (t : LegacyTable) (now : String) : List UserRow :=
  (t.rows.foldl
    (migStep (t.cols.contains "id") (t.cols.contains "created_at") now) ([], 1)).1

/-- The observable effect of one `ensure_users_table` run on the users table. -/
inductive UsersTableAfter where
  | fresh : UsersTableAfter
  | unchanged : UsersTableAfter
  | migrated : List UserRow → UsersTableAfter
  deriving DecidableEq

/-- `ensure_users_table` (src/app.py:22-87): create the table when absent,
return early when the needed columns are present, otherwise rebuild through
`users_new` and rename. -/
def ensure_users_table (t : Option LegacyTable) (now : String) : UsersTableAfter :=
  match t with
  | none => .fresh
  | some tab =>
      if hasNeededCols tab.cols then .unchanged
      else .migrated (migrateUsers tab now)

/-! ## Helper lemmas -/

/-- Finding a user in an appended table when the left part has no match. -/
theorem findUser_append_of_none {l1 l2 : List UserRow} {u : String}
    (h : findUser l1 u = none) : findUser (l1 ++ l2) u = findUser l2 u := by
  unfold findUser at h ⊢
  rw [List.find?_append, h, Option.none_or]

/-- Every hex digit produced by `Nat.digitChar` of a value reduced mod 16 is
in the lowercase hex alphabet (after `.lower()`). -/
theorem hexDigitChar_ok (n : Nat) :
    (hexChars.contains (Nat.digitChar (n % 16)).toLower) = true := by
  have h16 : ∀ m, m < 16 →
      (hexChars.contains (Nat.digitChar m).toLower) = true := by decide
  exact h16 _ (Nat.mod_lt _ (by norm_num))

/-- The hex rendering of a digest always has 64 characters. -/
theorem h8Hex_length (hv : H8) : (h8Hex hv).length = 64 := by
  simp [h8Hex, wordHex, byteHex, String.length]

/-- The eight hex characters of any word are all in the hex alphabet. -/
theorem wordHex_all (w : Nat) :
    (wordHex w).all (fun c => hexChars.contains c.toLower) = true := by
  unfold wordHex byteHex
  simp only [List.all_append, List.all_cons, List.all_nil, hexDigitChar_ok,
    Bool.and_true, Bool.and_self]

/-- The hex rendering of a digest always passes the stored-password shape
test of src/app.py:311. -/
theorem h8Hex_shape (hv : H8) : looksHashed (h8Hex hv) = true := by
  unfold looksHashed
  have hlen : (h8Hex hv).length = 64 := h8Hex_length hv
  have hne : (h8Hex hv == "") = false := by
    apply beq_eq_false_iff_ne.mpr
    intro he
    rw [he] at hlen
    simp [String.length] at hlen
  have hall : (h8Hex hv).data.all
      (fun c => hexChars.contains c.toLower) = true := by
    show (wordHex hv.v0 ++ wordHex hv.v1 ++ wordHex hv.v2 ++ wordHex hv.v3 ++
          wordHex hv.v4 ++ wordHex hv.v5 ++ wordHex hv.v6 ++ wordHex hv.v7).all
          (fun c => hexChars.contains c.toLower) = true
    simp only [List.all_append, wordHex_all, Bool.and_self]
  rw [hne, hlen, hall]
  rfl

/-- What `signup` stores always passes the shape test, so a freshly created
account is verified through the digest branch. -/
theorem looksHashed_hash (pw : String) : looksHashed (hash_password pw) = true :=
  h8Hex_shape _

/-! ## Claim theorems -/

/-- C6: for every dataset, requesting a Density Heatmap or Heatmap chart with
no Y column selected produces the user-facing validation error and no chart
object, and the retained last-chart state is left untouched. -/
theorem chart_heatmap_without_y_validates (x_col : String) (color_col : Option String)
    (prev : Option Fig) :
    (createChart .DensityHeatmap x_col none color_col).fig = none ∧
    (createChart .DensityHeatmap x_col none color_col).err =
      some "Density Heatmap requires both X and Y numeric columns" ∧
    (createChart .Heatmap x_col none color_col).fig = none ∧
    (createChart .Heatmap x_col none color_col).err =
      some "Heatmap requires both X and Y columns" ∧
    updateLastChart prev (createChart .DensityHeatmap x_col none color_col) = prev ∧
    updateLastChart prev (createChart .Heatmap x_col none color_col) = prev := by
  refine ⟨rfl, rfl, rfl, rfl, rfl, rfl⟩

/-- C7: the best-effort CSV mirrors never change what the primary operation
reports or writes: `signup`'s `(ok, message)` result and its `users` table,
and `save_feedback`'s result and its `feedback` table, are the same whether
the mirror append succeeds or raises; `save_feedback` reports `Saved` and
`signup` reports success exactly when the primary insert happens. -/
theorem mirror_failure_not_propagated (db : UsersDb) (fdb : FeedbackDb)
    (mirrorOk : Bool) (u p ts fu fb fts : String) :
    (signup db mirrorOk u p ts).2 =
      (if (findUser db.users u).isSome then (false, "Username already exists")
       else (true, "Account created")) ∧
    (signup db mirrorOk u p ts).1.users = (signup db true u p ts).1.users ∧
    (save_feedback fdb mirrorOk fu fb fts).2 = (true, "Saved") ∧
    (save_feedback fdb mirrorOk fu fb fts).1.feedbacks =
      (save_feedback fdb true fu fb fts).1.feedbacks := by
  cases hf : findUser db.users u <;>
    cases mirrorOk <;> simp [signup, save_feedback, hf]

/-- C8: `current_user` returns an identity exactly when the marker file
exists, its trimmed content is non-empty, and that username still resolves
in the users table; and the identity returned is the id and username of the
stored row. -/
theorem current_user_resolution (marker : Option String) (users : List UserRow) :
    (current_user marker users).isSome = true ↔
      ∃ content, marker = some content ∧ ¬(content.trim = "") ∧
        (findUser users content.trim).isSome = true := by
  cases marker with
  | none => simp [current_user]
  | some content =>
      unfold current_user
      by_cases he : content.trim = ""
      · simp [he]
      · cases hf : findUser users content.trim with
        | none => simp [he, hf]
        | some r => simp [he, hf]

/-- C2: for every username and password, when `signup` reports success, an
immediately following `check_credentials` with the same credentials returns
true: the stored value is the digest of the password, it passes the shape
test, and the digest comparison succeeds. -/
theorem signup_then_check_succeeds (db : UsersDb) (mirrorOk : Bool) (u p ts : String)
    (h : (signup db mirrorOk u p ts).2.1 = true) :
    (check_credentials (signup db mirrorOk u p ts).1.users u p).2 = true := by
  unfold signup at h ⊢
  cases hf : findUser db.users u with
  | some r => rw [hf] at h; simp at h
  | none =>
      simp only [hf]
      have hfind : findUser (db.users ++ [⟨db.nextId, u, hash_password p, ts⟩]) u =
          some ⟨db.nextId, u, hash_password p, ts⟩ := by
        rw [findUser_append_of_none hf]
        unfold findUser
        simp
      unfold check_credentials
      rw [hfind]
      simp [looksHashed_hash, verify_password]

/-- C2 witness: a concrete successful signup followed by a successful login. -/
theorem signup_then_check_succeeds_witness :
    (signup ⟨[], 1, []⟩ true "alice" "secret123" "t0").2.1 = true ∧
    (check_credentials (signup ⟨[], 1, []⟩ true "alice" "secret123" "t0").1.users
      "alice" "secret123").2 = true :=
  ⟨rfl, signup_then_check_succeeds ⟨[], 1, []⟩ true "alice" "secret123" "t0" rfl⟩

/-- C4: when the users table already holds exactly one row for a username, a
second `signup` for that username fails with the already-exists error, leaves
the whole state unchanged, and the table still holds exactly one such row. -/
theorem duplicate_signup_rejected (db : UsersDb) (mirrorOk : Bool) (u p ts : String)
    (h : db.users.countP (fun r => r.username == u) = 1) :
    signup db mirrorOk u p ts = (db, false, "Username already exists") ∧
    (signup db mirrorOk u p ts).1.users.countP (fun r => r.username == u) = 1 := by
  have hpos : 0 < db.users.countP (fun r => r.username == u) := by omega
  rw [List.countP_pos_iff] at hpos
  have hsome : (findUser db.users u).isSome := by
    unfold findUser
    rw [List.find?_isSome]
    obtain ⟨a, ha, hpa⟩ := hpos
    exact ⟨a, ha, hpa⟩
  obtain ⟨r, hr⟩ := Option.isSome_iff_exists.mp hsome
  have hs : signup db mirrorOk u p ts = (db, false, "Username already exists") := by
    unfold signup
    rw [hr]
  exact ⟨hs, by rw [hs]; exact h⟩

/-- C4 witness: a second signup for an existing concrete account is rejected
and the row count for that username stays one. -/
theorem duplicate_signup_rejected_witness :
    ([(⟨1, "alice", "h", "t0"⟩ : UserRow)].countP (fun r => r.username == "alice") = 1) ∧
    signup ⟨[⟨1, "alice", "h", "t0"⟩], 2, []⟩ true "alice" "pw2" "t1" =
      (⟨[⟨1, "alice", "h", "t0"⟩], 2, []⟩, false, "Username already exists") ∧
    (signup ⟨[⟨1, "alice", "h", "t0"⟩], 2, []⟩ true "alice" "pw2" "t1").1.users.countP
      (fun r => r.username == "alice") = 1 :=
  ⟨by decide,
   (duplicate_signup_rejected ⟨[⟨1, "alice", "h", "t0"⟩], 2, []⟩ true "alice" "pw2" "t1"
     (by decide)).1,
   (duplicate_signup_rejected ⟨[⟨1, "alice", "h", "t0"⟩], 2, []⟩ true "alice" "pw2" "t1"
     (by decide)).2⟩

/-- Updating the password of the row with a given id changes no username, so
the first row found for a username is the updated image of the old one. -/
theorem findUser_updatePassword (users : List UserRow) (u : String) (uid : Nat)
    (newPwd : String) :
    findUser (updatePassword users uid newPwd) u =
      (findUser users u).map
        (fun r => if r.id == uid then { r with password := newPwd } else r) := by
  unfold findUser updatePassword
  rw [List.find?_map]
  have hp : ((fun r : UserRow => r.username == u) ∘ fun r =>
      if r.id == uid then { r with password := newPwd } else r) =
      (fun r : UserRow => r.username == u) := by
    funext x
    by_cases hx : (x.id == uid) = true <;> simp [Function.comp, hx]
  rw [hp]

/-- C3 (amended): a legacy row whose stored plaintext password does not
itself look like a digest verifies on first login, the stored value is then
the digest of the password (different from the plaintext), and later logins
with the same password still verify. -/
theorem legacy_plaintext_migrates_on_login (users : List UserRow) (u pw : String)
    (r : UserRow) (hfind : findUser users u = some r) (hstored : r.password = pw)
    (hshape : looksHashed pw = false) :
    (check_credentials users u pw).2 = true ∧
    findUser (check_credentials users u pw).1 u =
      some { r with password := hash_password pw } ∧
    ¬(hash_password pw = pw) ∧
    (check_credentials (check_credentials users u pw).1 u pw).2 = true := by
  have hne : ¬(hash_password pw = pw) := by
    intro he
    rw [← he] at hshape
    rw [looksHashed_hash] at hshape
    cases hshape
  have hstep : check_credentials users u pw =
      (updatePassword users r.id (hash_password pw), true) := by
    simp [check_credentials, hfind, hstored, hshape]
  have hfind' : findUser (check_credentials users u pw).1 u =
      some { r with password := hash_password pw } := by
    rw [hstep, findUser_updatePassword, hfind]
    simp
  have hagain : check_credentials (check_credentials users u pw).1 u pw =
      ((check_credentials users u pw).1, true) := by
    generalize hU : (check_credentials users u pw).1 = users' at hfind'
    unfold check_credentials
    rw [hfind']
    simp [looksHashed_hash, verify_password]
  refine ⟨by rw [hstep], hfind', hne, by rw [hagain]⟩

/-- C3 witness: a concrete legacy row with plaintext password "secret123"
(not hash-shaped) goes through first-login migration and keeps verifying. -/
theorem legacy_plaintext_migrates_on_login_witness :
    (findUser [(⟨1, "bob", "secret123", "t0"⟩ : UserRow)] "bob" =
      some ⟨1, "bob", "secret123", "t0"⟩) ∧
    looksHashed "secret123" = false ∧
    (check_credentials [(⟨1, "bob", "secret123", "t0"⟩ : UserRow)] "bob" "secret123").2
      = true ∧
    (check_credentials
      (check_credentials [(⟨1, "bob", "secret123", "t0"⟩ : UserRow)] "bob" "secret123").1
      "bob" "secret123").2 = true := by
  have h := legacy_plaintext_migrates_on_login
    [(⟨1, "bob", "secret123", "t0"⟩ : UserRow)] "bob" "secret123"
    ⟨1, "bob", "secret123", "t0"⟩ (by decide) (by decide) (by decide)
  exact ⟨by decide, by decide, h.1, h.2.2.2⟩

/-- C1 counterexample: five filtered rows with window size five — a case with
N ≤ R and offset 0 in [0, R−N], where the claim requires a window of exactly
five rows — display an empty window, because the code gates the slider and
the `iloc` slice behind `data_max > 0` and `data_max = 5 - 5 = 0`. -/
theorem window_equal_size_is_empty :
    analysisWindow [["r1"], ["r2"], ["r3"], ["r4"], ["r5"]] 5 0 = [] ∧
    ¬((analysisWindow [["r1"], ["r2"], ["r3"], ["r4"], ["r5"]] 5 0).length = 5) := by
  constructor
  · rfl
  · decide

/-- C1 (amended): for N strictly below the filtered row count R, every offset
O in the offered range [0, R−N] yields a window of exactly N rows that are
rows O, O+1, …, O+N−1 of the filtered table; for N ≥ R the displayed window
is empty (and no error is raised — the window function is total). -/
theorem analysis_window_amended (filteredRows : List (List String)) (n o : Nat)
    (hn : n < filteredRows.length) (ho : o ≤ filteredRows.length - n) :
    (analysisWindow filteredRows n o).length = n ∧
    (∀ i, i < n → (analysisWindow filteredRows n o).getD i [] =
      filteredRows.getD (o + i) []) ∧
    (∀ m s, filteredRows.length ≤ m → analysisWindow filteredRows m s = []) := by
  have hmax : 0 < filteredRows.length - n := by omega
  refine ⟨?_, ?_, ?_⟩
  · unfold analysisWindow
    rw [if_pos hmax, List.length_take, List.length_drop]
    omega
  · intro i hi
    unfold analysisWindow
    rw [if_pos hmax]
    rw [List.getD_eq_getElem?_getD, List.getD_eq_getElem?_getD,
        List.getElem?_take_of_lt hi, List.getElem?_drop]
  · intro m s hms
    unfold analysisWindow
    rw [if_neg]
    omega

/-- C1 witness: three filtered rows, window size two, offset one displays
exactly rows two and three. -/
theorem analysis_window_amended_witness :
    2 < ([["a"], ["b"], ["c"]] : List (List String)).length ∧
    1 ≤ ([["a"], ["b"], ["c"]] : List (List String)).length - 2 ∧
    (analysisWindow [["a"], ["b"], ["c"]] 2 1).length = 2 ∧
    (∀ i, i < 2 → (analysisWindow [["a"], ["b"], ["c"]] 2 1).getD i [] =
      ([["a"], ["b"], ["c"]] : List (List String)).getD (1 + i) []) := by
  have h := analysis_window_amended [["a"], ["b"], ["c"]] 2 1 (by decide) (by decide)
  exact ⟨by decide, by decide, h.1, h.2.1⟩

/-- Character equality tests commute. -/
theorem charBeq_comm (a b : Char) : (a == b) = (b == a) := by
  by_cases h : a = b
  · rw [h]
  · rw [beq_eq_false_iff_ne.mpr h, beq_eq_false_iff_ne.mpr (Ne.symm h)]

/-- Matching a literal-only token list at the head of a text is the same as
the lowercased pattern being a leading segment of the lowercased text. -/
theorem toksMatchAt_lit (ps : List Char) :
    ∀ cs, toksMatchAt (ps.map PTok.lit) cs =
      charsStartWith (cs.map Char.toLower) (ps.map Char.toLower) := by
  induction ps with
  | nil => intro cs; cases cs <;> rfl
  | cons p ps ih =>
      intro cs
      cases cs with
      | nil => rfl
      | cons c cs =>
          simp only [List.map_cons, toksMatchAt, charsStartWith, tokMatch, ih,
            charBeq_comm]

/-- Searching a literal-only token list anywhere in a text is the same as
lowercased substring containment. -/
theorem toksSearch_lit (ps : List Char) :
    ∀ cs, toksSearch (ps.map PTok.lit) cs =
      charsHaveSub (cs.map Char.toLower) (ps.map Char.toLower) := by
  intro cs
  induction cs with
  | nil => cases ps <;> rfl
  | cons c cs ih =>
      show (toksMatchAt (ps.map PTok.lit) (c :: cs) || toksSearch (ps.map PTok.lit) cs) = _
      rw [toksMatchAt_lit, ih]
      rfl

/-- On literal-only patterns the regex search of the source coincides with
the case-insensitive substring test of the spec. -/
theorem pandasContains_litOnly (pat cell : String) (h : litOnly pat = true) :
    pandasStrContains pat cell = specContainsCI cell pat := by
  unfold pandasStrContains specContainsCI
  have hmap : pat.data.map tokOfChar = pat.data.map PTok.lit := by
    apply List.map_congr_left
    intro c hc
    unfold litOnly at h
    rw [List.all_eq_true] at h
    have hmem := h c hc
    have hdot : (c == '.') = false := by
      cases hcd : (c == '.') with
      | false => rfl
      | true => rw [hcd] at hmem; simp at hmem
    simp [tokOfChar, hdot]
  rw [hmap, toksSearch_lit]

/-- Every cell contains the empty pattern. -/
theorem specContainsCI_empty (cell : String) : specContainsCI cell "" = true := by
  unfold specContainsCI
  show charsHaveSub (cell.data.map Char.toLower) [] = true
  cases cell.data.map Char.toLower <;> rfl

/-- C5 counterexample: searching for "." in a column whose single cell is
"x" returns that row — the pattern is a regular expression (pandas
`str.contains` defaults to `regex=True`), and `.` matches any character —
although "." does not occur in "x" as a substring, so the claim predicts
zero rows. -/
theorem search_filter_dot_is_regex :
    (searchFilter ⟨["a"], [["x"]]⟩ "a" ".").rows = [["x"]] ∧
    specContainsCI "x" "." = false ∧
    ¬(searchFilter ⟨["a"], [["x"]]⟩ "a" "." =
        specSubstringFilter ⟨["a"], [["x"]]⟩ "a" ".") := by
  decide

/-- C5 (amended): the empty search value leaves the table unchanged, and for
a search value free of regex metacharacters (including `.`) the filter keeps
exactly the rows whose search-column cell contains the value
case-insensitively, in their original order — K matching rows yield exactly
K kept rows. -/
theorem search_filter_amended (df : DFrame) (searchCol searchVal : String)
    (h : litOnly searchVal = true) :
    searchFilter df searchCol "" = df ∧
    searchFilter df searchCol searchVal = specSubstringFilter df searchCol searchVal ∧
    (searchFilter df searchCol searchVal).rows.length =
      df.rows.countP (fun r => specContainsCI (cellVal df searchCol r) searchVal) ∧
    (searchFilter df searchCol searchVal).rows.Sublist df.rows := by
  have hempty : specSubstringFilter df searchCol "" = df := by
    unfold specSubstringFilter
    rw [if_pos (by rfl)]
  have hfeq : searchFilter df searchCol searchVal =
      specSubstringFilter df searchCol searchVal := by
    by_cases he : searchVal = ""
    · subst he
      rw [hempty]
      unfold searchFilter
      rw [if_pos (by rfl)]
    · unfold searchFilter specSubstringFilter
      rw [if_neg (by simpa using he), if_neg (by simpa using he)]
      congr 1
      apply List.filter_congr
      intro r _
      exact pandasContains_litOnly searchVal (cellVal df searchCol r) h
  have hspec : (specSubstringFilter df searchCol searchVal).rows =
      df.rows.filter (fun r => specContainsCI (cellVal df searchCol r) searchVal) := by
    by_cases he : searchVal = ""
    · subst he
      rw [hempty]
      have : df.rows.filter (fun r => specContainsCI (cellVal df searchCol r) "") =
          df.rows.filter (fun _ => true) := by
        apply List.filter_congr
        intro r _
        exact specContainsCI_empty _
      rw [this, List.filter_true]
    · unfold specSubstringFilter
      rw [if_neg (by simpa using he)]
  refine ⟨?_, hfeq, ?_, ?_⟩
  · unfold searchFilter
    rw [if_pos (by rfl)]
  · rw [hfeq, hspec, List.countP_eq_length_filter]
  · rw [hfeq, hspec]
    exact List.filter_sublist _

/-- C5 witness: searching "foo" (no metacharacters) in a three-row column
keeps exactly the two case-insensitive matches, in order. -/
theorem search_filter_amended_witness :
    litOnly "foo" = true ∧
    (searchFilter ⟨["a"], [["Foo"], ["bar"], ["fool"]]⟩ "a" "foo").rows.length =
      ([["Foo"], ["bar"], ["fool"]] : List (List String)).countP
        (fun r => specContainsCI (cellVal ⟨["a"], [["Foo"], ["bar"], ["fool"]]⟩ "a" r) "foo") :=
  ⟨by decide,
   (search_filter_amended ⟨["a"], [["Foo"], ["bar"], ["fool"]]⟩ "a" "foo" (by decide)).2.2.1⟩

/-- C3 counterexample: a legacy row whose stored plaintext password is the
64-character string "00…0" — which passes the digest-shape test — is locked
out: `check_credentials` takes the hash branch, compares
`sha256("00…0") `against the stored plaintext, fails, and performs no
migration, so the first login with the correct plaintext password returns
false where the claim requires true. -/
theorem legacy_hashlike_plaintext_locked_out :
    (check_credentials [⟨1, "carol", String.mk (List.replicate 64 '0'), "t0"⟩]
      "carol" (String.mk (List.replicate 64 '0'))).2 = false ∧
    (check_credentials [⟨1, "carol", String.mk (List.replicate 64 '0'), "t0"⟩]
      "carol" (String.mk (List.replicate 64 '0'))).1 =
      [⟨1, "carol", String.mk (List.replicate 64 '0'), "t0"⟩] := by
  constructor
  · set_option maxRecDepth 100000 in decide
  · rfl

/-- C9: when the first users-table row matching the username has a
hash-shaped stored password, `check_credentials` leaves the table unchanged
whether or not the password matches; and in every case the table is either
unchanged or updated only in the legacy-plaintext successful-match branch,
rewriting exactly the rows carrying the id of the row being verified. -/
theorem check_credentials_frame (users : List UserRow) (u pw : String) :
    (∀ r, findUser users u = some r → looksHashed r.password = true →
      (check_credentials users u pw).1 = users) ∧
    ((check_credentials users u pw).1 = users ∨
      ∃ r, findUser users u = some r ∧ looksHashed r.password = false ∧
        r.password = pw ∧
        (check_credentials users u pw).1 =
          updatePassword users r.id (hash_password pw) ∧
        (∀ i, i < users.length → ¬((users.getD i dummyRow).id = r.id) →
          (check_credentials users u pw).1.getD i dummyRow =
            users.getD i dummyRow)) := by
  cases hf : findUser users u with
  | none =>
      have hres : check_credentials users u pw = (users, false) := by
        unfold check_credentials
        rw [hf]
      refine ⟨?_, Or.inl (by rw [hres])⟩
      intro r hr hshape
      cases hr
  | some row =>
      by_cases hL : looksHashed row.password = true
      · have hres : check_credentials users u pw =
            (users, verify_password pw row.password) := by
          unfold check_credentials
          rw [hf]
          simp [hL]
        exact ⟨fun r _ _ => by rw [hres], Or.inl (by rw [hres])⟩
      · rw [Bool.not_eq_true] at hL
        by_cases hEq : (row.password == pw) = true
        · have hres : check_credentials users u pw =
              (updatePassword users row.id (hash_password pw), true) := by
            unfold check_credentials
            rw [hf]
            simp [hL, hEq]
          refine ⟨?_, Or.inr ⟨row, rfl, hL, by simpa using hEq, by rw [hres], ?_⟩⟩
          · intro r hr hshape
            rw [Option.some_inj] at hr
            subst hr
            rw [hL] at hshape
            simp at hshape
          · intro i hi hne
            have hne' : ¬(users[i].id = row.id) := by
              rw [List.getD_eq_getElem?_getD, List.getElem?_eq_getElem hi] at hne
              simpa using hne
            have hg : (updatePassword users row.id (hash_password pw)).getD i dummyRow =
                if (users[i].id == row.id) = true then
                  { users[i] with password := hash_password pw } else users[i] := by
              unfold updatePassword
              rw [List.getD_eq_getElem?_getD, List.getElem?_map,
                  List.getElem?_eq_getElem hi]
              rfl
            have hid : (users[i].id == row.id) = false :=
              beq_eq_false_iff_ne.mpr hne'
            rw [hres, hg, hid]
            rw [List.getD_eq_getElem?_getD, List.getElem?_eq_getElem hi]
            simp
        · have hres : check_credentials users u pw = (users, false) := by
            unfold check_credentials
            rw [hf]
            simp [hL, hEq]
          exact ⟨fun r _ _ => by rw [hres], Or.inl (by rw [hres])⟩

/-- Copying legacy rows through `INSERT OR IGNORE` keeps the usernames of
the replacement table pairwise distinct. -/
theorem migStep_fold_nodup (hasId hasCreated : Bool) (now : String) :
    ∀ (rows : List LegacyRow) (acc : List UserRow × Nat),
      (acc.1.map (fun r => r.username)).Nodup →
      ((rows.foldl (migStep hasId hasCreated now) acc).1.map
        (fun r => r.username)).Nodup := by
  intro rows
  induction rows with
  | nil => intro acc h; exact h
  | cons lr rs ih =>
      intro acc h
      apply ih
      by_cases hc : migConflict hasId acc lr = true
      · simp only [migStep, hc, if_true]
        exact h
      · rw [Bool.not_eq_true] at hc
        have hany : (acc.1.any fun x => x.username == lr.lusername.getD "") = false := by
          unfold migConflict at hc
          exact (Bool.or_eq_false_iff.mp hc).1
        rw [List.any_eq_false] at hany
        simp only [migStep, hc]
        rw [if_neg (by simp)]
        rw [List.map_append, List.nodup_append]
        refine ⟨h, List.nodup_singleton _, ?_⟩
        intro a ha hb
        simp only [List.map_cons, List.map_nil, List.mem_singleton] at hb
        rw [List.mem_map] at ha
        obtain ⟨x, hx, hxa⟩ := ha
        have hcontra := hany x hx
        rw [hb] at hxa
        exact hcontra (by rw [hxa]; simp)

/-- Every row of the replacement table carries a (coalesced) username coming
from the accumulator or from one of the copied legacy rows. -/
theorem migStep_fold_mem (hasId hasCreated : Bool) (now : String) :
    ∀ (rows : List LegacyRow) (acc : List UserRow × Nat),
      ∀ r ∈ (rows.foldl (migStep hasId hasCreated now) acc).1,
        r ∈ acc.1 ∨ r.username ∈ rows.map (fun lr => lr.lusername.getD "") := by
  intro rows
  induction rows with
  | nil => intro acc r hr; exact Or.inl hr
  | cons lr rs ih =>
      intro acc r hr
      rcases ih (migStep hasId hasCreated now acc lr) r hr with hacc | hrs
      · by_cases hc : migConflict hasId acc lr = true
        · simp only [migStep, hc, if_true] at hacc
          exact Or.inl hacc
        · rw [Bool.not_eq_true] at hc
          simp only [migStep, hc] at hacc
          rw [if_neg (by simp)] at hacc
          rcases List.mem_append.mp hacc with h1 | h2
          · exact Or.inl h1
          · right
            rw [List.mem_singleton] at h2
            rw [h2]
            simp only [List.map_cons]
            exact List.mem_cons_self _ _
      · right
        simp only [List.map_cons]
        exact List.mem_cons_of_mem _ hrs

/-- C10 counterexample: a legacy table (missing `created_at`, so the
structural migration runs) holding rows (id 1, "a"), (id 1, "b"),
(id 1, "b"): it has two rows with username "b", yet the migrated table keeps
zero of them — both are dropped by `INSERT OR IGNORE`, because their id
collides with the already-copied row (1, "a") — where the claim requires
exactly one to be kept. -/
theorem migration_username_dropped_entirely :
    hasNeededCols ["id", "username", "password"] = false ∧
    (([⟨some 1, some "a", some "pa", none⟩, ⟨some 1, some "b", some "pb", none⟩,
       ⟨some 1, some "b", some "pb2", none⟩] : List LegacyRow).countP
        (fun r => r.lusername.getD "" == "b")) = 2 ∧
    ensure_users_table (some ⟨["id", "username", "password"],
      [⟨some 1, some "a", some "pa", none⟩, ⟨some 1, some "b", some "pb", none⟩,
       ⟨some 1, some "b", some "pb2", none⟩]⟩) "NOW" =
      .migrated [⟨1, "a", "pa", "NOW"⟩] ∧
    ((migrateUsers ⟨["id", "username", "password"],
      [⟨some 1, some "a", some "pa", none⟩, ⟨some 1, some "b", some "pb", none⟩,
       ⟨some 1, some "b", some "pb2", none⟩]⟩ "NOW").countP
        (fun r => r.username == "b")) = 0 := by
  decide

/-- C10 (amended): whenever `ensure_users_table` performs the structural
migration, the resulting users table has pairwise-distinct usernames — each
username is kept at most once, duplicates are silently dropped rather than
failing, and every kept username comes from a legacy row (a legacy row can
also be dropped entirely when its id collides with an already-copied row). -/
theorem ensure_users_table_migration_unique (t : LegacyTable) (now : String)
    (h : hasNeededCols t.cols = false) :
    ensure_users_table (some t) now = .migrated (migrateUsers t now) ∧
    ((migrateUsers t now).map (fun r => r.username)).Nodup ∧
    (∀ u : String, ((migrateUsers t now).countP (fun r => r.username == u)) ≤ 1) ∧
    (∀ r ∈ migrateUsers t now,
      r.username ∈ t.rows.map (fun lr => lr.lusername.getD "")) := by
  have hnodup : ((migrateUsers t now).map (fun r => r.username)).Nodup :=
    migStep_fold_nodup _ _ now t.rows ([], 1) (by simp)
  refine ⟨?_, hnodup, ?_, ?_⟩
  · simp [ensure_users_table, h]
  · intro u
    have hcount := List.nodup_iff_count_le_one.mp hnodup u
    rw [List.count_eq_countP, List.countP_map] at hcount
    exact le_trans (le_of_eq (by apply List.countP_congr; intro x hx; simp)) hcount
  · intro r hr
    rcases migStep_fold_mem _ _ now t.rows ([], 1) r hr with hacc | hmem
    · cases hacc
    · exact hmem

/-- C10 witness: a legacy table with distinct ids and a duplicated username
"a" migrates to a table whose usernames are pairwise distinct. -/
theorem ensure_users_table_migration_unique_witness :
    hasNeededCols ["username", "password"] = false ∧
    ((migrateUsers ⟨["username", "password"],
      [⟨none, some "a", some "p1", none⟩, ⟨none, some "b", some "p2", none⟩,
       ⟨none, some "a", some "p3", none⟩]⟩ "NOW").map (fun r => r.username)).Nodup :=
  ⟨by decide,
   (ensure_users_table_migration_unique ⟨["username", "password"],
     [⟨none, some "a", some "p1", none⟩, ⟨none, some "b", some "p2", none⟩,
      ⟨none, some "a", some "p3", none⟩]⟩ "NOW" (by decide)).2.1⟩

/-- C8 witness: the session-resolution characterisation at a stale marker
naming a username absent from the users table. -/
theorem current_user_resolution_witness :
    (current_user (some "ghost") [(⟨1, "alice", "h", "t0"⟩ : UserRow)]).isSome = true ↔
      ∃ content, (some "ghost" : Option String) = some content ∧
        ¬(content.trim = "") ∧
        (findUser [(⟨1, "alice", "h", "t0"⟩ : UserRow)] content.trim).isSome = true :=
  current_user_resolution (some "ghost") [⟨1, "alice", "h", "t0"⟩]

/-- C9 witness: verifying against a concrete hash-shaped stored password —
here with a wrong password — leaves the users table unchanged. -/
theorem check_credentials_frame_witness :
    (check_credentials [⟨1, "dora", String.mk (List.replicate 64 'a'), "t0"⟩]
      "dora" "guess").1 =
      [⟨1, "dora", String.mk (List.replicate 64 'a'), "t0"⟩] :=
  (check_credentials_frame [⟨1, "dora", String.mk (List.replicate 64 'a'), "t0"⟩]
    "dora" "guess").1 ⟨1, "dora", String.mk (List.replicate 64 'a'), "t0"⟩
    (by decide) (by decide)

end DataApp
